import Mathlib

/-!
# Verification of the BLS series-selection-and-transform pipeline

A shallow embedding of the core of the `bureau-labor-statistics` connector:

* `Ingest` — the catalog-driven series selection and the resumable,
  batched fetch driver (`src/ingest/series_data.py`);
* `Transform` — the period/value normalizer and the dimension-variance
  detection of the topic transformer (`src/transforms/series_data/main.py`);
* `Validate` — the table validator (`src/transforms/series_data/test.py`).

Pure functions of the Python source become Lean functions; the stateful
fetch driver becomes a function from inputs (series ids, persisted state,
a network oracle) to an explicit effect record listing the upstream calls
made, the states persisted, and the raw artifact written.
-/

namespace Ingest

/-- A raw series record returned by the upstream API.  The fetch driver
never inspects these payloads; it only appends them, so they are modelled
as opaque tokens. -/
abbrev RawSeries := String

/-- One entry of the persisted series catalog: `{rank, series_id,
survey_prefix}`.  The driver reads `series_id` and, when present,
`survey_prefix`; rank only determines the (pre-sorted) catalog order. -/
structure CatEntry where
  series_id : String
  survey_prefix : Option String
deriving DecidableEq, Repr

/-- `entry.get('survey_prefix', entry.get('series_id', '')[:2])` -/
def prefixOf (e : CatEntry) : String :=
  e.survey_prefix.getD (e.series_id.take 2)

/-- `SERIES_PER_SURVEY = 500` -/
def SERIES_PER_SURVEY : Nat := 500

/-- `BATCH_SIZE = 50` -/
def BATCH_SIZE : Nat := 50

/-- `HIGH_VOLUME_SURVEYS = {"OE", "WM"}` -/
def HIGH_VOLUME_SURVEYS : List String := ["OE", "WM"]

/-- `SERIES_PER_SURVEY_HIGH_VOLUME = 2000` -/
def SERIES_PER_SURVEY_HIGH_VOLUME : Nat := 2000

/-- The hardcoded JOLTS fallback series ids (`FALLBACK_SERIES["JT"]`). -/
def FALLBACK_JT : List String :=
  ["JTS000000000000000JOL", "JTS000000000000000HIL", "JTS000000000000000QUL",
   "JTS000000000000000LDL", "JTS000000000000000TSL", "JTS000000000000000JOR",
   "JTS000000000000000HIR", "JTS000000000000000QUR", "JTS000000000000000LDR",
   "JTS000000000000000TSR", "JTS100000000000000JOL", "JTS100000000000000HIL",
   "JTS100000000000000QUL", "JTS900000000000000JOL", "JTS510000000000000JOL",
   "JTS540000000000000JOL", "JTS440000000000000JOL", "JTS720000000000000JOL",
   "JTS320000000000000JOL", "JTS230000000000000JOL"]

/-- `FALLBACK_SERIES` — a mapping survey prefix → hardcoded series ids. -/
def FALLBACK_SERIES : List (String × List String) := [("JT", FALLBACK_JT)]

/-- Append an element to the group keyed `p` of an association list,
creating the group at the end if absent (the behaviour of
`defaultdict(list)` insertion: first occurrence fixes key order, values
stay in append order). -/
def addToGroups (gs : List (String × List CatEntry)) (p : String) (e : CatEntry) :
    List (String × List CatEntry) :=
  match gs with
  | [] => [(p, [e])]
  | (q, l) :: rest =>
      if q = p then (q, l ++ [e]) :: rest else (q, l) :: addToGroups rest p e

/-- The `by_survey` grouping built by the loop
`for entry in catalog: by_survey[prefix].append(entry)`. -/
def buildGroups (catalog : List CatEntry) : List (String × List CatEntry) :=
  catalog.foldl (fun gs e => addToGroups gs (prefixOf e) e) []

/-- Insert a key at the end if not already present (Python `set.add`
viewed through first-insertion order). -/
def insertKey (ks : List String) (k : String) : List String :=
  if k ∈ ks then ks else ks ++ [k]

/-- The survey prefixes of a catalog, in first-occurrence order — the key
order of the `by_survey` dict. -/
def orderedKeys (catalog : List CatEntry) : List String :=
  catalog.foldl (fun ks e => insertKey ks (prefixOf e)) []

/-- `popular_series` fallback data: `popular_data["by_survey"]`, a mapping
survey prefix → list of series objects.  A list element is `none` when the
series object is falsy or its `seriesID` key is missing; otherwise it
carries the `seriesID` string (which the code additionally requires to be
truthy, i.e. nonempty). -/
structure PopularData where
  by_survey : List (String × List (Option String))
deriving Repr

/-- `series and series.get("seriesID")` -/
def validPop : Option String → Bool
  | some id => id ≠ ""
  | none => false

/-- The popular-series fill loop (`series_data.py` lines 95–102): for each
survey of `by_survey` not already covered, append its valid series ids and
mark the prefix covered.  Returns appended ids and the covered set. -/
def popFill (catalogKeys : List String)
    (by_survey : List (String × List (Option String))) :
    List String × List String :=
  by_survey.foldl
    (fun (acc : List String × List String) (kv : String × List (Option String)) =>
      if kv.1 ∈ acc.2 then acc
      else
        kv.2.foldl
          (fun (acc2 : List String × List String) s =>
            match s with
            | some id =>
                if id ≠ "" then (acc2.1 ++ [id], insertKey acc2.2 kv.1) else acc2
            | none => acc2)
          acc)
    ([], catalogKeys)

/-- The per-prefix quota: `SERIES_PER_SURVEY_HIGH_VOLUME if prefix in
HIGH_VOLUME_SURVEYS else per_survey`. -/
def quotaFor (per_survey : Nat) (p : String) : Nat :=
  if p ∈ HIGH_VOLUME_SURVEYS then SERIES_PER_SURVEY_HIGH_VOLUME else per_survey

/-- `select_series_from_catalog(catalog, popular_data, per_survey)`:
group the catalog by survey prefix, take the first `quota` entries of each
group, then fill surveys missing from the catalog from `popular_data`, then
append the hardcoded fallback lists for prefixes covered by neither. -/
def select_series_from_catalog (catalog : List CatEntry)
    (popular_data : Option PopularData) (per_survey : Nat) : List String :=
  let groups := buildGroups catalog
  let selected := groups.foldl
    (fun sel g =>
      sel ++ (g.2.take (quotaFor per_survey g.1)).map (·.series_id)) []
  let catalogKeys : List String := groups.map (·.1)
  let selected := match popular_data with
    | none => selected
    | some pd => selected ++ (popFill catalogKeys pd.by_survey).1
  let covered : List String := match popular_data with
    | none => catalogKeys
    | some pd =>
        catalogKeys ++
          ((pd.by_survey.filter
            (fun (kv : String × List (Option String)) => kv.2.any validPop)).map
              (fun (kv : String × List (Option String)) => kv.1))
  FALLBACK_SERIES.foldl
    (fun sel (kv : String × List String) =>
      if kv.1 ∈ covered then sel else sel ++ kv.2) selected

/-- The decoded JSON body of an upstream batch response (after the HTTP
layer and `response.json()`): its `status`, `message`, and
`Results.series`. -/
structure ApiResponse where
  status : String
  message : String
  results : List RawSeries
deriving Repr

/-- `fetch_series_batch` after the HTTP POST: raise on
`REQUEST_FAILED` / `REQUEST_NOT_PROCESSED`, otherwise return
`Results.series`.  The raised `ValueError` is modelled as `Except.error`
carrying the message text. -/
def fetch_series_batch (resp : ApiResponse) : Except String (List RawSeries) :=
  if resp.status = "REQUEST_FAILED" ∨ resp.status = "REQUEST_NOT_PROCESSED" then
    .error ("BLS API error: " ++ resp.message)
  else
    .ok resp.results

/-- The persisted fetch state as `run` reads it back:
`state.get("completed_series", [])`, `state.get("series_data", [])`, and
the terminal `completed` marker.  The terminal save `{"completed": True}`
stores neither list, so both read back empty. -/
structure StoredState where
  completed_series : List String := []
  series_data : List RawSeries := []
  completed : Bool := false
deriving DecidableEq, Repr

/-- The terminal state written by `save_state("series_data", {"completed": True})`. -/
def terminalState : StoredState := { completed := true }

/-- `completed_ids.update(batch)` — set union, keeping insertion order. -/
def unionIds (comp : List String) (batch : List String) : List String :=
  batch.foldl (fun c sid => if sid ∈ c then c else c ++ [sid]) comp

/-- Partition a list into consecutive chunks of `n` (the slices
`remaining_ids[i:i+BATCH_SIZE]` of the fetch loop).  Written with an
explicit fuel argument (initialised to the list length, which the chunk
count never exceeds) so the recursion is structural. -/
def chunksOf (n : Nat) (l : List α) : List (List α) :=
  go l.length l
where
  go : Nat → List α → List (List α)
  | _, [] => []
  | 0, _ :: _ => []
  | fuel + 1, x :: xs =>
      if n = 0 then [] else (x :: xs).take n :: go fuel ((x :: xs).drop n)

/-- The observable effects of one invocation of the fetch driver `run`
(lines 170–227 of `src/ingest/series_data.py`): the batches sent upstream,
every state passed to `save_state` in order, the `series_data` payload of
`save_raw_json` (if reached), and the Python return value of `run`
(always `None`, modelled as `none`). -/
structure RunResult where
  calls : List (List String)
  saves : List StoredState
  rawSaved : Option (List RawSeries)
  retval : Option Bool
deriving DecidableEq, Repr

/-- The batch loop of `run`: for each batch issue the fetch; on success
extend the accumulated data, add the batch ids to the completed set and
persist; on any exception persist the unchanged progress and continue.
`net i` is the decoded response the network returns for the `i`-th batch
of this invocation.  Returns (calls, saves, final completed set, final
accumulated data). -/
def runLoop (net : Nat → ApiResponse) (i : Nat) (comp : List String)
    (data : List RawSeries) :
    List (List String) → List (List String) × List StoredState × List String × List RawSeries
  | [] => ([], [], comp, data)
  | b :: bs =>
    match fetch_series_batch (net i) with
    | .ok recs =>
        let data2 := data ++ recs
        let comp2 := unionIds comp b
        let st : StoredState :=
          { completed_series := comp2, series_data := data2 }
        let rest := runLoop net (i + 1) comp2 data2 bs
        (b :: rest.1, st :: rest.2.1, rest.2.2)
    | .error _ =>
        let st : StoredState :=
          { completed_series := comp, series_data := data }
        let rest := runLoop net (i + 1) comp data bs
        (b :: rest.1, st :: rest.2.1, rest.2.2)

/-- The fetch driver `run` (lines 170–227), parameterized over the
selected `series_ids`, the loaded persisted state and the network oracle:
compute the remaining ids, return immediately if none, otherwise process
the fixed-size batches, then write the raw artifact and the terminal
state.  The Python function returns `None` on every path. -/
def run (series_ids : List String) (st : StoredState)
    (net : Nat → ApiResponse) : RunResult :=
  let completed_ids := st.completed_series
  let remaining_ids := series_ids.filter (fun sid => sid ∉ completed_ids)
  if remaining_ids = [] then
    { calls := [], saves := [], rawSaved := none, retval := none }
  else
    let batches := chunksOf BATCH_SIZE remaining_ids
    let r := runLoop net 0 completed_ids st.series_data batches
    { calls := r.1
      saves := r.2.1 ++ [terminalState]
      rawSaved := some r.2.2.2
      retval := none }

end Ingest

namespace Transform

/-- Digit characters to the natural number they denote (Python `int` on an
all-digit string). -/
def digitsToNat (cs : List Char) : Nat :=
  cs.foldl (fun a c => 10 * a + (c.toNat - 48)) 0

/-- Every character is an ASCII digit (Python `str.isdigit` on the ASCII
strings at hand). -/
def allDigits (cs : List Char) : Bool :=
  cs.all Char.isDigit

/-- Python `float(s)` on a plain decimal literal: optional sign, an
integer part and/or a fractional part with at least one digit in total;
any other string fails (returns `none`, the shape the surrounding
`try/except` turns into `None`).  Values are rationals — every decimal
literal is exact. -/
def parseDecimal (s : String) : Option ℚ :=
  let cs := s.toList
  let (neg, cs) : Bool × List Char :=
    match cs with
    | '-' :: rest => (true, rest)
    | '+' :: rest => (false, rest)
    | _ => (false, cs)
  let core : Option ℚ :=
    match cs.span (fun c => c ≠ '.') with
    | (intp, []) =>
        if intp ≠ [] ∧ allDigits intp then some (digitsToNat intp : ℚ) else none
    | (intp, _dot :: fracp) =>
        if allDigits intp ∧ allDigits fracp ∧ (intp ≠ [] ∨ fracp ≠ []) then
          some ((digitsToNat intp : ℚ) +
            (digitsToNat fracp : ℚ) / ((10 : ℚ) ^ fracp.length))
        else none
  core.map (fun q => if neg then -q else q)

/-- `parse_value(value)`: the dash sentinel, the empty string and an
absent value are `None`; otherwise `float(value)`, with any parse failure
also `None`. -/
def parse_value : Option String → Option ℚ
  | none => none
  | some s => if s = "-" ∨ s = "" then none else parseDecimal s

/-- Substring containment, for the title keyword checks of
`extract_unit`. -/
def containsSub (hay needle : String) : Bool :=
  decide (needle.toList <:+: hay.toList)

/-- `extract_unit(series_title)`: keyword scan over the lowercased
title. -/
def extract_unit (series_title : String) : String :=
  let t := series_title.toLower
  if containsSub t "percent change" ∨ containsSub t "percent of" then "percent"
  else if containsSub t "index" then "index"
  else if containsSub t "in thousands" ∨ containsSub t "thousands" then "thousands"
  else if containsSub t "in millions" then "millions"
  else if containsSub t "in dollars" ∨ containsSub t "dollars per" then "dollars"
  else if containsSub t "hours" ∧ (containsSub t "average" ∨ containsSub t "weekly")
    then "hours"
  else if containsSub t "rate" then "rate"
  else ""

/-- The `catalog` metadata block of a raw series, each field optional
(absent keys read through `dict.get` defaults). -/
structure CatalogMeta where
  series_title : Option String := none
  survey_abbreviation : Option String := none
  seasonality : Option String := none
  area : Option String := none
  area_type : Option String := none
  commerce_industry : Option String := none
  industry : Option String := none
  occupation : Option String := none
  demographic_age : Option String := none
  demographic_gender : Option String := none
  demographic_race : Option String := none
  demographic_education : Option String := none
deriving DecidableEq, Repr

/-- One observation of a raw series: `{year, period, value}` (the fields
the transform reads; `value` may be absent). -/
structure DataEntry where
  year : String := ""
  period : String := ""
  value : Option String := none
deriving DecidableEq, Repr

/-- A raw series as the transform reads it: `seriesID`, an optional
`catalog` block, and the observation list. -/
structure ApiSeries where
  seriesID : Option String := none
  catalog : Option CatalogMeta := none
  data : List DataEntry := []
deriving DecidableEq, Repr

/-- One output row: the flat `series_info` dimensions merged with
`{date, value}`. -/
structure Row where
  survey_abbreviation : String
  seasonality : String
  area : String
  area_type : String
  indicator : String
  unit : String
  industry : String
  occupation : String
  demographic_age : String
  demographic_gender : String
  demographic_race : String
  demographic_education : String
  date : String
  value : ℚ
deriving DecidableEq, Repr

/-- Zero-padded two-digit month rendering (`f-string` `{month:02d}`). -/
def pad2 (n : Nat) : String :=
  if n < 10 then "0" ++ Nat.repr n else Nat.repr n

/-- `period.startswith(c) and period[1:].isdigit()` — the guard shared by
the `M`, `Q` and `S` branches. -/
def startsWithDigits (period : String) (c : Char) : Bool :=
  match period.toList with
  | c0 :: rest => c0 = c ∧ rest ≠ [] ∧ allDigits rest
  | [] => false

/-- The period-code branch of the observation loop: `M`+digits (13 maps
to the bare year, otherwise a zero-padded month), `Q`+digits, the literal
`A01`, and `S`+digits mapped to half years; anything else falls through
to `continue`. -/
def periodToDate (year period : String) : Option String :=
  if startsWithDigits period 'M' then
    let month := digitsToNat period.toList.tail
    if month = 13 then some year else some (year ++ "-" ++ pad2 month)
  else if startsWithDigits period 'Q' then
    some (year ++ "-Q" ++ Nat.repr (digitsToNat period.toList.tail))
  else if period = "A01" then some year
  else if startsWithDigits period 'S' then
    some (year ++ "-H" ++ Nat.repr (digitsToNat period.toList.tail))
  else none

/-- The body of the observation loop of `parse_series_data`: map the
period code to a date (dropping unrecognized codes), parse the value
(dropping nulls), and emit the merged row. -/
def entryToRow (info : Row) (e : DataEntry) : Option Row :=
  match periodToDate e.year e.period with
  | none => none
  | some date =>
      match parse_value e.value with
      | none => none
      | some v => some { info with date := date, value := v }

/-- The `series_info` record of `parse_series_data`: every descriptive
dimension read from the catalog block with an empty-string default;
`date` and `value` are placeholders overwritten per observation. -/
def mkSeriesInfo (sd : ApiSeries) : Row :=
  let series_id := sd.seriesID.getD ""
  let c := sd.catalog.getD {}
  let series_title := c.series_title.getD ""
  { survey_abbreviation :=
      c.survey_abbreviation.getD (if series_id ≠ "" then series_id.take 2 else "")
    seasonality := c.seasonality.getD ""
    area := c.area.getD ""
    area_type := c.area_type.getD ""
    indicator := series_title
    unit := extract_unit series_title
    industry := c.commerce_industry.getD (c.industry.getD "")
    occupation := c.occupation.getD ""
    demographic_age := c.demographic_age.getD ""
    demographic_gender := c.demographic_gender.getD ""
    demographic_race := c.demographic_race.getD ""
    demographic_education := c.demographic_education.getD ""
    date := ""
    value := 0 }

/-- `parse_series_data(series_data)`: one row per retained observation. -/
def parse_series_data (sd : ApiSeries) : List Row :=
  sd.data.filterMap (entryToRow (mkSeriesInfo sd))

/-- `ALL_DIMENSIONS` — the fixed candidate dimension list. -/
def ALL_DIMENSIONS : List String :=
  ["date", "seasonality", "area", "area_type", "industry", "occupation",
   "demographic_age", "demographic_gender", "demographic_race",
   "demographic_education", "unit"]

/-- Row lookup by dimension-column name (`r.get(col, "")` on the row
dict, restricted to the names the variance scan actually queries). -/
def Row.getCol (r : Row) : String → String
  | "date" => r.date
  | "seasonality" => r.seasonality
  | "area" => r.area
  | "area_type" => r.area_type
  | "industry" => r.industry
  | "occupation" => r.occupation
  | "demographic_age" => r.demographic_age
  | "demographic_gender" => r.demographic_gender
  | "demographic_race" => r.demographic_race
  | "demographic_education" => r.demographic_education
  | "unit" => r.unit
  | _ => ""

/-- The distinct non-empty values a column takes across a row set (the
`values` set built by the scan loops; `dedup` so the length is the set
size). -/
def nonEmptyValues (records : List Row) (col : String) : List String :=
  ((records.map (fun r => r.getCol col)).filter (fun v => v ≠ "")).dedup

/-- `find_varying_columns(records)`: the candidate columns with more than
one distinct non-empty value. -/
def find_varying_columns (records : List Row) : List String :=
  ALL_DIMENSIONS.filter (fun col => 1 < (nonEmptyValues records col).length)

/-- `get_constant_values(records)`: the non-`date` candidate columns with
exactly one distinct non-empty value, paired with that value. -/
def get_constant_values (records : List Row) : List (String × String) :=
  (ALL_DIMENSIONS.filter (fun col => col ≠ "date")).filterMap
    (fun col =>
      match nonEmptyValues records col with
      | [v] => some (col, v)
      | _ => none)

/-- The `if "date" not in varying_cols: varying_cols = ["date"] +
varying_cols` adjustment of `run`. -/
def forceDate (cols : List String) : List String :=
  if "date" ∈ cols then cols else "date" :: cols

/-- The output schema a survey group receives in `run`: the varying
columns with `date` forced, followed by `indicator` and `value`
(`build_schema`). -/
def datasetSchema (records : List Row) : List String :=
  forceDate (find_varying_columns records) ++ ["indicator", "value"]

end Transform

namespace Validate

/-- One cell, as `to_pylist` exposes it: a null, a string, or a float
(floats are modelled as exact rationals). -/
inductive Cell where
  | null : Cell
  | s (v : String) : Cell
  | f (v : ℚ) : Cell
deriving DecidableEq, Repr

/-- One column of an emitted table: its schema name, whether its declared
type is floating-point, and its cells. -/
structure Column where
  name : String
  isFloat : Bool
  cells : List Cell
deriving DecidableEq, Repr

/-- An emitted table (schema plus columnar data). -/
structure Table where
  cols : List Column
deriving DecidableEq, Repr

/-- `table.schema.names` -/
def Table.names (t : Table) : List String :=
  t.cols.map (·.name)

/-- `table.column(n).to_pylist()` (empty when the column is absent; the
validator only reads columns whose presence it has already asserted). -/
def Table.colCells (t : Table) (n : String) : List Cell :=
  ((t.cols.find? (fun c => c.name = n)).map (·.cells)).getD []

/-- Whether column `n` has a floating-point type. -/
def Table.colIsFloat (t : Table) (n : String) : Bool :=
  ((t.cols.find? (fun c => c.name = n)).map (·.isFloat)).getD false

/-- `len(table)` — the row count (all columns of a real table have the
same length; we read the first). -/
def Table.numRows (t : Table) : Nat :=
  match t.cols with
  | [] => 0
  | c :: _ => c.cells.length

/-- Modelled from the spec: `subsets_utils.validate(table, {"not_null":
["date", "indicator", "value"], "min_rows": 1})` — the external
persistence-utils checker, out of scope in the source tree.  Per its call
contract it asserts that none of the three named columns contains a null
and that the table has at least one row. -/
def validate_not_null_min_rows (t : Table) : Bool :=
  (["date", "indicator", "value"].all
    (fun c => (t.colCells c).all (fun cell => cell ≠ Cell.null))) &&
  (1 ≤ t.numRows)

/-- The per-date assertions of the sample loop: the cell is a truthy
string of length ≥ 4 whose first four characters are digits forming a
year in `[1900, 2030]`. -/
def dateOK : Cell → Bool
  | .s v =>
      v ≠ "" ∧ 4 ≤ v.length ∧ (v.toList.take 4).all Char.isDigit ∧
      1900 ≤ Transform.digitsToNat (v.toList.take 4) ∧
      Transform.digitsToNat (v.toList.take 4) ≤ 2030
  | _ => false

/-- `test(table, dataset_id)` of `src/transforms/series_data/test.py`: the
checks in source order, the first failing assertion reported as the
error.  The date-format loop samples only `dates[:100]`. -/
def test (t : Table) : Except String Unit :=
  if "date" ∉ t.names then .error "Missing date column"
  else if "indicator" ∉ t.names then .error "Missing indicator column"
  else if "value" ∉ t.names then .error "Missing value column"
  else if !validate_not_null_min_rows t then .error "validate failed"
  else if !((t.colCells "date").take 100).all dateOK then .error "Invalid date"
  else if !t.colIsFloat "value" then .error "value should be float"
  else if ((t.colCells "indicator").dedup).length < 1 then
    .error "Should have at least 1 indicator"
  else .ok ()

end Validate

namespace Examples

/-- A successful upstream response returning one opaque record. -/
def okResp : Ingest.ApiResponse :=
  { status := "REQUEST_SUCCEEDED", message := "", results := ["rec"] }

/-- The daily-quota refusal the API sends once the request budget for the
day is spent: a processed-failure status whose message carries the
daily-threshold phrase. -/
def quotaResp : Ingest.ApiResponse :=
  { status := "REQUEST_NOT_PROCESSED"
    message := "daily threshold of 500 requests has been reached"
    results := [] }

/-- An ordinary (non-quota) upstream failure. -/
def errResp : Ingest.ApiResponse :=
  { status := "REQUEST_FAILED", message := "Series does not exist", results := [] }

/-- A network where every batch succeeds. -/
def netOk : Nat → Ingest.ApiResponse := fun _ => okResp

/-- A network where the first batch hits the daily quota and later batches
succeed. -/
def netQuotaFirst : Nat → Ingest.ApiResponse :=
  fun i => if i = 0 then quotaResp else okResp

/-- A network where the first batch fails with an ordinary error and later
batches succeed. -/
def netErrFirst : Nat → Ingest.ApiResponse :=
  fun i => if i = 0 then errResp else okResp

/-- 51 distinct series ids — enough for two batches of the driver. -/
def ids51 : List String := (List.range 51).map (fun i => "S" ++ Nat.repr i)

/-- A rank-sorted catalog of 800 entries of the ordinary survey `LA`. -/
def catalogLA800 : List Ingest.CatEntry :=
  (List.range 800).map (fun i => { series_id := "LA" ++ Nat.repr i, survey_prefix := some "LA" })

/-- A rank-sorted catalog of 800 entries of the high-volume survey `OE`. -/
def catalogOE800 : List Ingest.CatEntry :=
  (List.range 800).map (fun i => { series_id := "OE" ++ Nat.repr i, survey_prefix := some "OE" })

/-- A row of the variance example: shared `area`, varying `industry`. -/
def mkVarRow (ind industry : String) (d : String) : Transform.Row :=
  { survey_abbreviation := "LA", seasonality := "", area := "US", area_type := ""
    indicator := ind, unit := "", industry := industry, occupation := ""
    demographic_age := "", demographic_gender := "", demographic_race := ""
    demographic_education := "", date := d, value := 1 }

/-- Three rows sharing `area = "US"` with `industry` taking two distinct
non-empty values. -/
def varRows : List Transform.Row :=
  [mkVarRow "i1" "construction" "2020", mkVarRow "i2" "manufacturing" "2021",
   mkVarRow "i3" "manufacturing" "2022"]

/-- A table whose 101st date has year 1850 while the first 100 are fine. -/
def table101 : Validate.Table :=
  { cols :=
      [ { name := "date", isFloat := false
          cells := List.replicate 100 (Validate.Cell.s "2020") ++ [Validate.Cell.s "1850"] }
      , { name := "indicator", isFloat := false
          cells := List.replicate 101 (Validate.Cell.s "unemployment rate") }
      , { name := "value", isFloat := true
          cells := List.replicate 101 (Validate.Cell.f 1) } ] }

/-- A table missing the `value` column. -/
def tableNoValue : Validate.Table :=
  { cols :=
      [ { name := "date", isFloat := false, cells := [Validate.Cell.s "2020"] }
      , { name := "indicator", isFloat := false, cells := [Validate.Cell.s "x"] } ] }

/-- A table with a year-1850 date in the sampled window. -/
def tableBadYear : Validate.Table :=
  { cols :=
      [ { name := "date", isFloat := false, cells := [Validate.Cell.s "1850"] }
      , { name := "indicator", isFloat := false, cells := [Validate.Cell.s "x"] }
      , { name := "value", isFloat := true, cells := [Validate.Cell.f 1] } ] }

/-- A table satisfying every check. -/
def tableGood : Validate.Table :=
  { cols :=
      [ { name := "date", isFloat := false
          cells := [Validate.Cell.s "2021-03", Validate.Cell.s "2020"] }
      , { name := "indicator", isFloat := false
          cells := [Validate.Cell.s "x", Validate.Cell.s "y"] }
      , { name := "value", isFloat := true
          cells := [Validate.Cell.f 1, Validate.Cell.f (7/2)] } ] }

end Examples

section DriverLemmas

open Ingest

/-- The fuel argument of `chunksOf.go` is irrelevant once it covers the
list length. -/
theorem chunksOf_go_fuel {α : Type _} (n : Nat) :
    ∀ (f1 : Nat) (l : List α) (f2 : Nat), l.length ≤ f1 → l.length ≤ f2 →
      chunksOf.go n f1 l = chunksOf.go n f2 l := by
  intro f1
  induction f1 with
  | zero =>
    intro l f2 h1 _
    have hl : l = [] := List.eq_nil_of_length_eq_zero (Nat.le_zero.mp h1)
    subst hl
    cases f2 <;> rfl
  | succ g ih =>
    intro l f2 h1 h2
    cases l with
    | nil => cases f2 <;> rfl
    | cons x xs =>
      cases f2 with
      | zero => simp at h2
      | succ g2 =>
        simp only [chunksOf.go]
        by_cases hn : n = 0
        · simp [hn]
        · simp only [hn, if_false]
          congr 1
          apply ih
          · simp only [List.length_drop, List.length_cons]
            simp only [List.length_cons] at h1
            omega
          · simp only [List.length_drop, List.length_cons]
            simp only [List.length_cons] at h2
            omega

/-- Unfolding `chunksOf` on a nonempty list with a positive chunk size. -/
theorem chunksOf_cons {α : Type _} (n : Nat) (hn : n ≠ 0) (x : α) (xs : List α) :
    chunksOf n (x :: xs) = (x :: xs).take n :: chunksOf n ((x :: xs).drop n) := by
  show chunksOf.go n (x :: xs).length (x :: xs) = _
  simp only [List.length_cons, chunksOf.go, hn, if_false]
  congr 1
  exact chunksOf_go_fuel n xs.length _ _
    (by simp only [List.length_drop, List.length_cons]; omega) le_rfl

/-- Concatenating the chunks recovers the list. -/
theorem chunksOf_flatten {α : Type _} (n : Nat) (hn : n ≠ 0) (l : List α) :
    (chunksOf n l).flatten = l := by
  generalize hk : l.length = k
  induction k using Nat.strong_induction_on generalizing l with
  | _ k ih =>
    match l with
    | [] => rfl
    | x :: xs =>
      rw [chunksOf_cons n hn]
      have hlt : ((x :: xs).drop n).length < k := by
        subst hk
        simp only [List.length_drop, List.length_cons]
        omega
      rw [List.flatten_cons, ih _ hlt _ rfl, List.take_append_drop]

/-- Every chunk is nonempty and no longer than the chunk size. -/
theorem chunksOf_mem {α : Type _} (n : Nat) (hn : n ≠ 0) :
    ∀ l b : List α, b ∈ chunksOf n l → b ≠ [] ∧ b.length ≤ n := by
  intro l
  generalize hk : l.length = k
  induction k using Nat.strong_induction_on generalizing l with
  | _ k ih =>
    intro b hb
    match l with
    | [] => simp [chunksOf, chunksOf.go] at hb
    | x :: xs =>
      rw [chunksOf_cons n hn] at hb
      rcases List.mem_cons.mp hb with h | h
      · subst h
        constructor
        · cases n with
          | zero => exact absurd rfl hn
          | succ m => simp
        · simp
      · have hlt : ((x :: xs).drop n).length < k := by
          subst hk
          simp only [List.length_drop, List.length_cons]
          omega
        exact ih _ hlt _ rfl b h

/-- The batch loop issues one upstream call per batch, in order, whatever
the outcomes. -/
theorem runLoop_calls (net : Nat → ApiResponse) (bs : List (List String)) :
    ∀ (i : Nat) (comp : List String) (data : List RawSeries),
      (runLoop net i comp data bs).1 = bs := by
  induction bs with
  | nil => intro i comp data; rfl
  | cons b bs ih =>
      intro i comp data
      unfold runLoop
      cases fetch_series_batch (net i) with
      | ok recs => simpa using ih (i + 1) _ _
      | error e => simpa using ih (i + 1) _ _

/-- The batch loop persists the state exactly once per batch. -/
theorem runLoop_saves_length (net : Nat → ApiResponse) (bs : List (List String)) :
    ∀ (i : Nat) (comp : List String) (data : List RawSeries),
      (runLoop net i comp data bs).2.1.length = bs.length := by
  induction bs with
  | nil => intro i comp data; rfl
  | cons b bs ih =>
      intro i comp data
      unfold runLoop
      cases fetch_series_batch (net i) with
      | ok recs => simpa using ih (i + 1) _ _
      | error e => simpa using ih (i + 1) _ _

/-- `run` issues exactly the fixed-size batching of the remaining ids as
its upstream calls. -/
theorem run_calls (ids : List String) (st : StoredState) (net : Nat → ApiResponse) :
    (Ingest.run ids st net).calls
      = chunksOf BATCH_SIZE (ids.filter (fun sid => sid ∉ st.completed_series)) := by
  simp only [Ingest.run]
  split
  · next h => rw [h]; rfl
  · next h => exact runLoop_calls net _ 0 _ _

/-- When some ids remain, the persisted states of `run` are the per-batch
saves of the loop followed by the terminal state. -/
theorem run_saves (ids : List String) (st : StoredState) (net : Nat → ApiResponse)
    (h : ids.filter (fun sid => sid ∉ st.completed_series) ≠ []) :
    (Ingest.run ids st net).saves
      = (runLoop net 0 st.completed_series st.series_data
          (chunksOf BATCH_SIZE (ids.filter (fun sid => sid ∉ st.completed_series)))).2.1
        ++ [terminalState] := by
  simp only [Ingest.run]
  split
  · next h' => exact absurd h' h
  · rfl

/-- When some ids remain, `run` reaches the raw-artifact write. -/
theorem run_rawSaved_isSome (ids : List String) (st : StoredState)
    (net : Nat → ApiResponse)
    (h : ids.filter (fun sid => sid ∉ st.completed_series) ≠ []) :
    (Ingest.run ids st net).rawSaved.isSome := by
  simp only [Ingest.run]
  split
  · next h' => exact absurd h' h
  · rfl

/-- The state saved at an errored batch adds nothing: it is the initial
state for the first batch, and the previously saved state otherwise. -/
theorem runLoop_error_save (net : Nat → ApiResponse) (bs : List (List String)) :
    ∀ (i0 : Nat) (comp : List String) (data : List RawSeries) (j : Nat),
      j < bs.length →
      (∃ e, fetch_series_batch (net (i0 + j)) = Except.error e) →
      (runLoop net i0 comp data bs).2.1[j]? =
        match j with
        | 0 => some { completed_series := comp, series_data := data }
        | k + 1 => (runLoop net i0 comp data bs).2.1[k]? := by
  induction bs with
  | nil => intro i0 comp data j hj _; simp at hj
  | cons b bs ih =>
    intro i0 comp data j hj he
    match j with
    | 0 =>
      obtain ⟨e, he⟩ := he
      rw [Nat.add_zero] at he
      unfold runLoop
      rw [he]
      simp
    | k + 1 =>
      have hk : k < bs.length := by simpa using hj
      have he' : ∃ e, fetch_series_batch (net (i0 + 1 + k)) = Except.error e := by
        obtain ⟨e, he⟩ := he
        exact ⟨e, by rw [show i0 + 1 + k = i0 + (k + 1) by omega]; exact he⟩
      unfold runLoop
      cases hf : fetch_series_batch (net i0) with
      | ok recs =>
        simp only [List.getElem?_cons_succ]
        rw [ih (i0 + 1) _ _ k hk he']
        match k with
        | 0 => simp
        | m + 1 => simp
      | error e =>
        simp only [List.getElem?_cons_succ]
        rw [ih (i0 + 1) _ _ k hk he']
        match k with
        | 0 => simp
        | m + 1 => simp

end DriverLemmas

/-- C1: re-running the driver with input `series_ids` and persisted state
`state` issues fetch requests for exactly the series of `series_ids` not
in `completed_series`, in the original input order, partitioned into
consecutive nonempty batches of at most `BATCH_SIZE = 50`, and never
issues a request for a series already in `completed_series`. -/
theorem c1_resumable_fetch_order (series_ids : List String)
    (st : Ingest.StoredState) (net : Nat → Ingest.ApiResponse) :
    (Ingest.run series_ids st net).calls.flatten
        = series_ids.filter (fun sid => sid ∉ st.completed_series) ∧
    ∀ b ∈ (Ingest.run series_ids st net).calls,
      b.length ≤ Ingest.BATCH_SIZE ∧ b ≠ [] ∧
        ∀ sid ∈ b, sid ∈ series_ids ∧ sid ∉ st.completed_series := by
  have h50 : Ingest.BATCH_SIZE ≠ 0 := by decide
  rw [run_calls]
  refine ⟨chunksOf_flatten _ h50 _, fun b hb => ?_⟩
  obtain ⟨hne, hlen⟩ := chunksOf_mem _ h50 _ b hb
  refine ⟨hlen, hne, fun sid hsid => ?_⟩
  have : sid ∈ (Ingest.chunksOf Ingest.BATCH_SIZE
      (series_ids.filter (fun sid => sid ∉ st.completed_series))).flatten :=
    List.mem_flatten.mpr ⟨b, hb, hsid⟩
  rw [chunksOf_flatten _ h50] at this
  have := List.mem_filter.mp this
  exact ⟨this.1, by simpa using this.2⟩

/-- Witness for C1 at the spec's own example: `series_ids = [A,B,C,D]`
with `completed_series = {A,B}` fetches exactly `[C,D]` in one batch. -/
theorem c1_resumable_fetch_order_witness :
    ["C", "D"] ∈ (Ingest.run ["A", "B", "C", "D"]
        { completed_series := ["A", "B"] } Examples.netOk).calls ∧
    (["C", "D"].length ≤ Ingest.BATCH_SIZE ∧ ["C", "D"] ≠ [] ∧
      ∀ sid ∈ ["C", "D"], sid ∈ ["A", "B", "C", "D"] ∧
        sid ∉ ({ completed_series := ["A", "B"] } : Ingest.StoredState).completed_series) :=
  ⟨by decide,
   (c1_resumable_fetch_order ["A", "B", "C", "D"]
       { completed_series := ["A", "B"] } Examples.netOk).2
     ["C", "D"] (by decide)⟩

/-- C10: when every requested series id is already in the persisted
`completed_series`, the driver returns immediately: no upstream call, no
state write, no raw artifact, and no terminal marker. -/
theorem c10_noop_when_all_completed (series_ids : List String)
    (st : Ingest.StoredState) (net : Nat → Ingest.ApiResponse)
    (h : ∀ sid ∈ series_ids, sid ∈ st.completed_series) :
    Ingest.run series_ids st net
      = { calls := [], saves := [], rawSaved := none, retval := none } := by
  unfold Ingest.run
  have hfil : series_ids.filter (fun sid => sid ∉ st.completed_series) = [] :=
    List.filter_eq_nil_iff.mpr (by intro a ha; simpa using h a ha)
  simp only [hfil]
  rfl

/-- Witness for C10: both requested ids are already completed, so the run
has no observable effect. -/
theorem c10_noop_when_all_completed_witness :
    (∀ sid ∈ ["A", "B"],
        sid ∈ ({ completed_series := ["B", "A", "C"] } : Ingest.StoredState).completed_series) ∧
    Ingest.run ["A", "B"] { completed_series := ["B", "A", "C"] } Examples.netOk
      = { calls := [], saves := [], rawSaved := none, retval := none } :=
  ⟨by decide,
   c10_noop_when_all_completed ["A", "B"] { completed_series := ["B", "A", "C"] }
     Examples.netOk (by decide)⟩

/-- Counterexample to C4 as stated: a run over the single series `A`
completes all batches and persists the terminal completed state, yet a
second run loaded with that terminal state issues a fetch for `A` again
(one call, not zero) — the terminal `{completed: true}` save stores no
`completed_series`, so nothing is skipped on the next run. -/
theorem c4_counterexample :
    (Ingest.run ["A"] {} Examples.netOk).saves.getLast? = some Ingest.terminalState ∧
    (Ingest.run ["A"] Ingest.terminalState Examples.netOk).calls = [["A"]] := by
  decide

/-- C4 amended: after a completed run has replaced the incremental state
with the terminal `{completed: true}` state, a second run with the same
series ids re-issues fetches for ALL of them (its batches concatenate to
the full input), and it makes zero upstream calls only when the input is
empty. -/
theorem c4_amended_rerun_refetches_all (series_ids : List String)
    (net : Nat → Ingest.ApiResponse) :
    (Ingest.run series_ids Ingest.terminalState net).calls.flatten = series_ids ∧
    ((Ingest.run series_ids Ingest.terminalState net).calls = [] ↔ series_ids = []) := by
  have h50 : Ingest.BATCH_SIZE ≠ 0 := by decide
  have hfil : series_ids.filter
      (fun sid => sid ∉ Ingest.terminalState.completed_series) = series_ids :=
    List.filter_eq_self.mpr (by intro a _; simp [Ingest.terminalState])
  rw [run_calls, hfil]
  refine ⟨chunksOf_flatten _ h50 _, ?_⟩
  constructor
  · intro h
    cases series_ids with
    | nil => rfl
    | cons x xs => rw [chunksOf_cons _ h50] at h; exact absurd h (by simp)
  · intro h
    rw [h]
    rfl

/-- C2 (code evaluated at the failing input): a first-batch response whose
status is `REQUEST_NOT_PROCESSED` and whose message carries the
daily-threshold phrase is treated like any other error — the driver still
issues the second batch's request, finishes the loop, writes the raw
artifact and the terminal completed state, and `run` returns `None`, so
the caller's `needs_continuation` flag can never be set. -/
theorem c2_quota_phrase_not_special :
    (Ingest.run Examples.ids51 {} Examples.netQuotaFirst).calls.length = 2 ∧
    (Ingest.run Examples.ids51 {} Examples.netQuotaFirst).retval = none ∧
    (Ingest.run Examples.ids51 {} Examples.netQuotaFirst).saves[0]?
      = some { completed_series := [], series_data := [] } ∧
    (Ingest.run Examples.ids51 {} Examples.netQuotaFirst).saves.getLast?
      = some Ingest.terminalState ∧
    (Ingest.run Examples.ids51 {} Examples.netQuotaFirst).rawSaved.isSome := by
  decide

/-- Counterexample to C3 as stated: with an ordinary (non-quota) failure
on the first of two batches, the driver still issues the second batch's
request and the run completes normally — writing the raw artifact and the
terminal completed state — instead of propagating the failure. -/
theorem c3_counterexample :
    (Ingest.run Examples.ids51 {} Examples.netErrFirst).calls.length = 2 ∧
    (Ingest.run Examples.ids51 {} Examples.netErrFirst).saves[0]?
      = some { completed_series := [], series_data := [] } ∧
    (Ingest.run Examples.ids51 {} Examples.netErrFirst).saves.getLast?
      = some Ingest.terminalState ∧
    (Ingest.run Examples.ids51 {} Examples.netErrFirst).rawSaved = some ["rec"] := by
  decide

/-- C3 amended: when fetching batch `i` fails (with any error), the driver
persists the current state — the save at position `i` records no progress
beyond the previous save (or beyond the loaded state, for the first
batch) — and then CONTINUES: every remaining batch is still requested and
the run completes, writing the raw artifact and the terminal state, rather
than propagating the failure. -/
theorem c3_amended_persist_and_continue (series_ids : List String)
    (st : Ingest.StoredState) (net : Nat → Ingest.ApiResponse) (i : Nat)
    (hi : i < (Ingest.run series_ids st net).calls.length)
    (he : ∃ e, Ingest.fetch_series_batch (net i) = Except.error e) :
    (Ingest.run series_ids st net).calls.length
        = (Ingest.chunksOf Ingest.BATCH_SIZE
            (series_ids.filter (fun sid => sid ∉ st.completed_series))).length ∧
    (Ingest.run series_ids st net).rawSaved.isSome ∧
    (Ingest.run series_ids st net).saves.getLast? = some Ingest.terminalState ∧
    (Ingest.run series_ids st net).saves[i]? =
      (match i with
       | 0 => some { completed_series := st.completed_series
                     series_data := st.series_data }
       | k + 1 => (Ingest.run series_ids st net).saves[k]?) := by
  have hrem : series_ids.filter (fun sid => sid ∉ st.completed_series) ≠ [] := by
    intro hnil
    rw [run_calls, hnil] at hi
    simp [Ingest.chunksOf, Ingest.chunksOf.go] at hi
  have hcalls := run_calls series_ids st net
  have hsaves := run_saves series_ids st net hrem
  have hlenloop : (Ingest.runLoop net 0 st.completed_series st.series_data
      (Ingest.chunksOf Ingest.BATCH_SIZE
        (series_ids.filter (fun sid => sid ∉ st.completed_series)))).2.1.length
      = (Ingest.chunksOf Ingest.BATCH_SIZE
          (series_ids.filter (fun sid => sid ∉ st.completed_series))).length :=
    runLoop_saves_length net _ 0 _ _
  have hi' : i < (Ingest.chunksOf Ingest.BATCH_SIZE
      (series_ids.filter (fun sid => sid ∉ st.completed_series))).length := by
    rwa [hcalls] at hi
  refine ⟨by rw [hcalls], run_rawSaved_isSome series_ids st net hrem, ?_, ?_⟩
  · rw [hsaves]; exact List.getLast?_concat _
  · rw [hsaves]
    rw [List.getElem?_append_left (by omega)]
    have herr := runLoop_error_save net
      (Ingest.chunksOf Ingest.BATCH_SIZE
        (series_ids.filter (fun sid => sid ∉ st.completed_series)))
      0 st.completed_series st.series_data i hi' (by simpa using he)
    rw [herr]
    match i with
    | 0 => rfl
    | k + 1 =>
      dsimp only
      rw [List.getElem?_append_left (by omega)]

/-- Witness for C3 amended: first of two batches fails, the first saved
state records no progress, and both batches are still requested. -/
theorem c3_amended_persist_and_continue_witness :
    (0 < (Ingest.run Examples.ids51 {} Examples.netErrFirst).calls.length) ∧
    ((Ingest.run Examples.ids51 {} Examples.netErrFirst).calls.length
        = (Ingest.chunksOf Ingest.BATCH_SIZE
            (Examples.ids51.filter
              (fun sid => sid ∉ ({} : Ingest.StoredState).completed_series))).length ∧
     (Ingest.run Examples.ids51 {} Examples.netErrFirst).rawSaved.isSome ∧
     (Ingest.run Examples.ids51 {} Examples.netErrFirst).saves.getLast?
        = some Ingest.terminalState ∧
     (Ingest.run Examples.ids51 {} Examples.netErrFirst).saves[0]?
        = some { completed_series := ({} : Ingest.StoredState).completed_series
                 series_data := ({} : Ingest.StoredState).series_data }) :=
  ⟨by decide,
   c3_amended_persist_and_continue Examples.ids51 {} Examples.netErrFirst 0
     (by decide) ⟨"BLS API error: Series does not exist", rfl⟩⟩

/-- C5: the normalizer's postcondition on the spec's four examples, the
null sentinels of `parse_value`, and the exclusion of null-valued
observations from the row set. -/
theorem c5_normalizer_examples_and_null_drop :
    ((Transform.entryToRow (Transform.mkSeriesInfo {})
        { year := "2020", period := "M13", value := some "3.5" }).map
          (fun r => (r.date, r.value)) = some ("2020", (7 : ℚ) / 2)) ∧
    Transform.entryToRow (Transform.mkSeriesInfo {})
        { year := "2021", period := "Q2", value := some "-" } = none ∧
    Transform.entryToRow (Transform.mkSeriesInfo {})
        { year := "2019", period := "M05", value := some "" } = none ∧
    ((Transform.entryToRow (Transform.mkSeriesInfo {})
        { year := "2022", period := "S1", value := some "12" }).map
          (fun r => (r.date, r.value)) = some ("2022-H1", (12 : ℚ))) ∧
    Transform.parse_value none = none ∧
    Transform.parse_value (some "-") = none ∧
    Transform.parse_value (some "") = none ∧
    ∀ (info : Transform.Row) (e : Transform.DataEntry),
      Transform.parse_value e.value = none → Transform.entryToRow info e = none := by
  refine ⟨?_, by decide, by decide, by decide, rfl, rfl, rfl, ?_⟩
  · have h : (Transform.entryToRow (Transform.mkSeriesInfo {})
        { year := "2020", period := "M13", value := some "3.5" }).map
          (fun r => (r.date, r.value))
        = some ("2020", ((3 : ℕ) : ℚ) + ((5 : ℕ) : ℚ) / (10 : ℚ) ^ (1 : ℕ)) := rfl
    rw [h]
    norm_num
  intro info e h
  unfold Transform.entryToRow
  cases hp : Transform.periodToDate e.year e.period with
  | none => rfl
  | some d => rw [h]

/-- Witness for C5's universal part: the non-numeric value `N/A` parses to
null and its observation yields no row despite a valid period code. -/
theorem c5_normalizer_examples_and_null_drop_witness :
    Transform.parse_value (some "N/A") = none ∧
    Transform.entryToRow (Transform.mkSeriesInfo {})
        { year := "2020", period := "M01", value := some "N/A" } = none :=
  ⟨by decide,
   c5_normalizer_examples_and_null_drop.2.2.2.2.2.2.2
     (Transform.mkSeriesInfo {})
     { year := "2020", period := "M01", value := some "N/A" } (by decide)⟩

/-- Counterexample to C6 as stated: the period code `M14` is none of
M01–M13, Q1–Q4, A01, S1–S2, yet the normalizer does not drop the
observation — it emits a row dated `2020-14`. -/
theorem c6_counterexample :
    (Transform.parse_series_data
        { seriesID := some "LAUCN281070000000003"
          catalog := none
          data := [{ year := "2020", period := "M14", value := some "1" }] }).map
        Transform.Row.date = ["2020-14"] := by
  decide

/-- C6 amended: an observation is dropped (producing no row and no error)
exactly when its period code fails all four source guards — it does not
start with `M`, `Q` or `S` followed by one-or-more digits and is not the
literal `A01`.  Codes of the right shape but outside the documented
ranges (`M14`, `Q5`, `S3`, …) are NOT dropped. -/
theorem c6_amended_unrecognized_dropped (info : Transform.Row)
    (e : Transform.DataEntry)
    (hM : Transform.startsWithDigits e.period 'M' = false)
    (hQ : Transform.startsWithDigits e.period 'Q' = false)
    (hA : e.period ≠ "A01")
    (hS : Transform.startsWithDigits e.period 'S' = false) :
    Transform.entryToRow info e = none := by
  unfold Transform.entryToRow Transform.periodToDate
  rw [hM, hQ, hS]
  simp [hA]

/-- Witness for C6 amended: the junk period code `XYZ` yields no row. -/
theorem c6_amended_unrecognized_dropped_witness :
    Transform.startsWithDigits "XYZ" 'M' = false ∧
    Transform.entryToRow (Transform.mkSeriesInfo {})
        { year := "2020", period := "XYZ", value := some "1" } = none :=
  ⟨by decide,
   c6_amended_unrecognized_dropped (Transform.mkSeriesInfo {})
     { year := "2020", period := "XYZ", value := some "1" }
     (by decide) (by decide) (by decide) (by decide)⟩

/-- Membership in the varying-column scan: more than one distinct
non-empty value among the candidates. -/
theorem mem_find_varying_columns (records : List Transform.Row) (col : String) :
    col ∈ Transform.find_varying_columns records ↔
      col ∈ Transform.ALL_DIMENSIONS ∧
        1 < (Transform.nonEmptyValues records col).length := by
  unfold Transform.find_varying_columns
  rw [List.mem_filter]
  simp

/-- `date` is always in the forced column set. -/
theorem date_mem_forceDate (cols : List String) :
    "date" ∈ Transform.forceDate cols := by
  unfold Transform.forceDate
  split
  · assumption
  · exact List.mem_cons_self _ _

/-- Forcing `date` changes membership of no other column. -/
theorem mem_forceDate_of_ne (cols : List String) (col : String)
    (h : col ≠ "date") : col ∈ Transform.forceDate cols ↔ col ∈ cols := by
  unfold Transform.forceDate
  split
  · exact Iff.rfl
  · rw [List.mem_cons]
    simp [h]

/-- Membership of a non-`date` candidate in the output schema is exactly
the variance condition. -/
theorem mem_datasetSchema_iff (records : List Transform.Row) (col : String)
    (hcol : col ∈ Transform.ALL_DIMENSIONS) (hd : col ≠ "date") :
    col ∈ Transform.datasetSchema records ↔
      1 < (Transform.nonEmptyValues records col).length := by
  unfold Transform.datasetSchema
  rw [List.mem_append, mem_forceDate_of_ne _ _ hd, mem_find_varying_columns]
  have hind : col ≠ "indicator" := by
    rintro rfl
    revert hcol
    decide
  have hval : col ≠ "value" := by
    rintro rfl
    revert hcol
    decide
  simp [hcol, hind, hval]

/-- Membership in the constants map: a non-`date` candidate whose
distinct non-empty value list is the singleton of the recorded value. -/
theorem mem_get_constant_values (records : List Transform.Row) (col v : String) :
    (col, v) ∈ Transform.get_constant_values records ↔
      col ∈ Transform.ALL_DIMENSIONS ∧ col ≠ "date" ∧
        Transform.nonEmptyValues records col = [v] := by
  unfold Transform.get_constant_values
  rw [List.mem_filterMap]
  constructor
  · rintro ⟨a, ha, hae⟩
    rcases hl : Transform.nonEmptyValues records a with _ | ⟨x, _ | ⟨y, tl⟩⟩ <;>
      rw [hl] at hae
    · simp at hae
    · simp only [Option.some.injEq, Prod.mk.injEq] at hae
      obtain ⟨rfl, rfl⟩ := hae
      have hmem := List.mem_filter.mp ha
      exact ⟨hmem.1, by simpa using hmem.2, hl⟩
    · simp at hae
  · rintro ⟨h1, h2, h3⟩
    refine ⟨col, List.mem_filter.mpr ⟨h1, by simpa using h2⟩, ?_⟩
    rw [h3]

/-- C7: for every row set, a candidate dimension column other than `date`
is in the output schema iff it takes more than one distinct non-empty
value; `date` is always in the schema; a column with exactly one distinct
non-empty value goes to the constants metadata instead of the schema; a
column with no non-empty value appears in neither. -/
theorem c7_variance_detection (records : List Transform.Row) :
    "date" ∈ Transform.datasetSchema records ∧
    ∀ col ∈ Transform.ALL_DIMENSIONS, col ≠ "date" →
      ((col ∈ Transform.datasetSchema records ↔
          1 < (Transform.nonEmptyValues records col).length) ∧
       ((Transform.nonEmptyValues records col).length = 1 →
          (∃ v, (col, v) ∈ Transform.get_constant_values records) ∧
          col ∉ Transform.datasetSchema records) ∧
       ((Transform.nonEmptyValues records col).length = 0 →
          col ∉ Transform.datasetSchema records ∧
          ∀ v, (col, v) ∉ Transform.get_constant_values records)) := by
  constructor
  · exact List.mem_append_left _ (date_mem_forceDate _)
  · intro col hcol hd
    refine ⟨mem_datasetSchema_iff records col hcol hd, ?_, ?_⟩
    · intro h1
      obtain ⟨v, hv⟩ := List.length_eq_one.mp h1
      refine ⟨⟨v, (mem_get_constant_values records col v).mpr ⟨hcol, hd, hv⟩⟩, ?_⟩
      rw [mem_datasetSchema_iff records col hcol hd, h1]
      omega
    · intro h0
      constructor
      · rw [mem_datasetSchema_iff records col hcol hd, h0]
        omega
      · intro v hv
        have := ((mem_get_constant_values records col v).mp hv).2.2
        rw [this] at h0
        simp at h0

/-- Witness for C7 at the spec's example: three rows share `area = "US"`
while `industry` takes two distinct non-empty values, so `area` lands in
the constants (not the schema), `industry` is in the schema, and `date`
is in the schema. -/
theorem c7_variance_detection_witness :
    ((Transform.nonEmptyValues Examples.varRows "area").length = 1 ∧
      (∃ v, ("area", v) ∈ Transform.get_constant_values Examples.varRows) ∧
      "area" ∉ Transform.datasetSchema Examples.varRows) ∧
    (1 < (Transform.nonEmptyValues Examples.varRows "industry").length ∧
      "industry" ∈ Transform.datasetSchema Examples.varRows) ∧
    "date" ∈ Transform.datasetSchema Examples.varRows := by
  refine ⟨⟨by decide, ?_, ?_⟩, ⟨by decide, ?_⟩,
    (c7_variance_detection Examples.varRows).1⟩
  · exact (((c7_variance_detection Examples.varRows).2 "area"
      (by decide) (by decide)).2.1 (by decide)).1
  · exact (((c7_variance_detection Examples.varRows).2 "area"
      (by decide) (by decide)).2.1 (by decide)).2
  · exact (((c7_variance_detection Examples.varRows).2 "industry"
      (by decide) (by decide)).1).mpr (by decide)

section SelectionLemmas

open Ingest

/-- Membership in `insertKey`. -/
theorem mem_insertKey (ks : List String) (k p : String) :
    p ∈ insertKey ks k ↔ p ∈ ks ∨ p = k := by
  unfold insertKey
  split
  · next h =>
    constructor
    · exact Or.inl
    · rintro (hp | rfl)
      · exact hp
      · exact h
  · simp

/-- `insertKey` preserves distinctness of the key list. -/
theorem insertKey_nodup (ks : List String) (k : String) (h : ks.Nodup) :
    (insertKey ks k).Nodup := by
  unfold insertKey
  split
  · exact h
  · next hk =>
    rw [List.nodup_append]
    exact ⟨h, List.nodup_singleton k, by
      intro a ha hmem
      rw [List.mem_singleton] at hmem
      exact hk (hmem ▸ ha)⟩

/-- The collected key list of a catalog is duplicate-free. -/
theorem orderedKeys_nodup (catalog : List CatEntry) :
    (orderedKeys catalog).Nodup := by
  have h : ∀ (l : List CatEntry) (ks : List String), ks.Nodup →
      (l.foldl (fun ks e => insertKey ks (prefixOf e)) ks).Nodup := by
    intro l
    induction l with
    | nil => intro ks h; exact h
    | cons e l ih =>
      intro ks h
      rw [List.foldl_cons]
      exact ih _ (insertKey_nodup ks (prefixOf e) h)
  exact h catalog [] List.nodup_nil

/-- `orderedKeys` collects exactly the prefixes occurring in the catalog. -/
theorem mem_orderedKeys (catalog : List CatEntry) (p : String) :
    p ∈ orderedKeys catalog ↔ ∃ e ∈ catalog, prefixOf e = p := by
  have h : ∀ (l : List CatEntry) (ks : List String),
      p ∈ l.foldl (fun ks e => insertKey ks (prefixOf e)) ks ↔
        p ∈ ks ∨ ∃ e ∈ l, prefixOf e = p := by
    intro l
    induction l with
    | nil => simp
    | cons e l ih =>
      intro ks
      rw [List.foldl_cons, ih, mem_insertKey]
      constructor
      · rintro ((hp | rfl) | ⟨x, hx, hpx⟩)
        · exact Or.inl hp
        · exact Or.inr ⟨e, List.mem_cons_self _ _, rfl⟩
        · exact Or.inr ⟨x, List.mem_cons_of_mem _ hx, hpx⟩
      · rintro (hp | ⟨x, hx, hpx⟩)
        · exact Or.inl (Or.inl hp)
        · rcases List.mem_cons.mp hx with rfl | hx'
          · exact Or.inl (Or.inr hpx.symm)
          · exact Or.inr ⟨x, hx', hpx⟩
  have := h catalog []
  simpa using this

/-- Appending one entry to the catalog appends its prefix to the key
list (when new). -/
theorem orderedKeys_snoc (l : List CatEntry) (e : CatEntry) :
    orderedKeys (l ++ [e]) = insertKey (orderedKeys l) (prefixOf e) := by
  unfold orderedKeys
  rw [List.foldl_append]
  rfl

/-- Appending one entry to the catalog updates the grouping once. -/
theorem buildGroups_snoc (l : List CatEntry) (e : CatEntry) :
    buildGroups (l ++ [e]) = addToGroups (buildGroups l) (prefixOf e) e := by
  unfold buildGroups
  rw [List.foldl_append]
  rfl

/-- `addToGroups` on an association list missing the key appends a fresh
singleton group. -/
theorem addToGroups_of_not_mem (K : List String) (F : String → List CatEntry)
    (p : String) (e : CatEntry) (hp : ∀ q ∈ K, q ≠ p) :
    addToGroups (K.map (fun q => (q, F q))) p e
      = K.map (fun q => (q, F q)) ++ [(p, [e])] := by
  induction K with
  | nil => rfl
  | cons q K ih =>
    simp only [List.map_cons, addToGroups]
    rw [if_neg (hp q (List.mem_cons_self _ _)),
      ih (fun r hr => hp r (List.mem_cons_of_mem _ hr))]
    rfl

/-- `addToGroups` on an association list with distinct keys containing
the key appends the entry to exactly that key's group. -/
theorem addToGroups_of_mem (K : List String) (F : String → List CatEntry)
    (p : String) (e : CatEntry) (hK : K.Nodup) (hp : p ∈ K) :
    addToGroups (K.map (fun q => (q, F q))) p e
      = K.map (fun q => (q, F q ++ if p = q then [e] else [])) := by
  induction K with
  | nil => simp at hp
  | cons q K ih =>
    simp only [List.map_cons, addToGroups]
    by_cases hqp : q = p
    · subst hqp
      rw [if_pos rfl]
      have hnot : q ∉ K := (List.nodup_cons.mp hK).1
      congr 1
      · simp
      · apply List.map_congr_left
        intro x hx
        have hne : q ≠ x := fun h => hnot (h ▸ hx)
        simp [hne]
    · rw [if_neg hqp]
      have hp' : p ∈ K := by
        rcases List.mem_cons.mp hp with h | h
        · exact absurd h.symm hqp
        · exact h
      rw [ih (List.nodup_cons.mp hK).2 hp']
      have hpq : ¬p = q := fun h => hqp h.symm
      congr 1
      simp [hpq]

/-- The grouping built by the catalog fold is: one group per prefix in
first-occurrence order, each group the in-order sublist of entries with
that prefix. -/
theorem buildGroups_eq (catalog : List CatEntry) :
    buildGroups catalog
      = (orderedKeys catalog).map
          (fun p => (p, catalog.filter (fun e => prefixOf e = p))) := by
  induction catalog using List.reverseRecOn with
  | nil => rfl
  | append_singleton l e ih =>
    rw [buildGroups_snoc, orderedKeys_snoc, ih]
    by_cases hp : prefixOf e ∈ orderedKeys l
    · rw [show insertKey (orderedKeys l) (prefixOf e) = orderedKeys l from
        by unfold insertKey; rw [if_pos hp]]
      rw [addToGroups_of_mem _ _ _ _ (orderedKeys_nodup l) hp]
      apply List.map_congr_left
      intro q _
      rw [List.filter_append]
      congr 1
      simp only [List.filter_cons, List.filter_nil]
      split
      · next hq => rw [if_pos (by simpa using hq)]
      · next hq => rw [if_neg (by simpa using hq)]
    · rw [show insertKey (orderedKeys l) (prefixOf e) = orderedKeys l ++ [prefixOf e] from
        by unfold insertKey; rw [if_neg hp]]
      rw [addToGroups_of_not_mem _ _ _ _
        (fun q hq h => hp (by rw [← h]; exact hq)), List.map_append]
      congr 1
      · apply List.map_congr_left
        intro q hq
        have hne : prefixOf e ≠ q := fun h => hp (by rw [h]; exact hq)
        rw [List.filter_append]
        simp [hne]
      · have hfil : l.filter (fun x => prefixOf x = prefixOf e) = [] := by
          rw [List.filter_eq_nil_iff]
          intro a ha
          simp only [decide_eq_true_eq]
          intro hpa
          exact hp ((mem_orderedKeys l (prefixOf e)).mpr ⟨a, ha, hpa⟩)
        simp [List.filter_append, hfil]

/-- A fold that appends per-group selections equals the concatenation of
those selections. -/
theorem foldl_append_eq_flatten {β : Type _} (f : β → List String) (gs : List β) :
    ∀ init : List String,
      gs.foldl (fun sel g => sel ++ f g) init = init ++ (gs.map f).flatten := by
  induction gs with
  | nil => intro init; simp
  | cons g gs ih =>
    intro init
    rw [List.foldl_cons, ih]
    simp

end SelectionLemmas

/-- The catalog-derived portion of the selection output: per-prefix takes
in first-occurrence order; whatever the popular-series and hardcoded
fallback chains contribute comes after it. -/
theorem select_series_base (catalog : List Ingest.CatEntry)
    (popular_data : Option Ingest.PopularData) (per_survey : Nat) :
    ∃ rest, Ingest.select_series_from_catalog catalog popular_data per_survey
      = ((Ingest.orderedKeys catalog).map (fun p =>
          ((catalog.filter (fun e => Ingest.prefixOf e = p)).take
              (Ingest.quotaFor per_survey p)).map (fun e => e.series_id))).flatten
        ++ rest := by
  simp only [Ingest.select_series_from_catalog]
  rw [buildGroups_eq catalog, foldl_append_eq_flatten]
  simp only [List.nil_append]
  have hmm : (List.map (fun g : String × List Ingest.CatEntry =>
        (g.2.take (Ingest.quotaFor per_survey g.1)).map (fun e => e.series_id))
      (List.map (fun p => (p, catalog.filter (fun e => Ingest.prefixOf e = p)))
        (Ingest.orderedKeys catalog))).flatten
      = ((Ingest.orderedKeys catalog).map (fun p =>
          ((catalog.filter (fun e => Ingest.prefixOf e = p)).take
              (Ingest.quotaFor per_survey p)).map (fun e => e.series_id))).flatten := by
    rw [List.map_map]
    rfl
  rw [hmm]
  cases popular_data with
  | none =>
    simp only [Ingest.FALLBACK_SERIES, List.foldl_cons, List.foldl_nil]
    split
    · exact ⟨[], by rw [List.append_nil]⟩
    · exact ⟨Ingest.FALLBACK_JT, rfl⟩
  | some pd =>
    simp only [Ingest.FALLBACK_SERIES, List.foldl_cons, List.foldl_nil]
    split
    · exact ⟨_, rfl⟩
    · exact ⟨_, by rw [List.append_assoc]⟩

/-- C8: the selection returns, for each survey prefix of the (rank-sorted)
catalog, the first `quota` entries of that prefix's group — `quota` being
2000 for the high-volume prefixes and `per_survey` otherwise — and the
whole group when it is smaller than the quota; these per-prefix segments,
in group order, form the catalog-derived prefix of the output. -/
theorem c8_catalog_selection_quota (catalog : List Ingest.CatEntry)
    (popular_data : Option Ingest.PopularData) (per_survey : Nat) :
    (∃ rest, Ingest.select_series_from_catalog catalog popular_data per_survey
        = ((Ingest.orderedKeys catalog).map (fun p =>
            ((catalog.filter (fun e => Ingest.prefixOf e = p)).take
                (Ingest.quotaFor per_survey p)).map (fun e => e.series_id))).flatten
          ++ rest) ∧
    ∀ p ∈ Ingest.orderedKeys catalog,
      ((catalog.filter (fun e => Ingest.prefixOf e = p)).take
          (Ingest.quotaFor per_survey p)).length
        = min (Ingest.quotaFor per_survey p)
            (catalog.filter (fun e => Ingest.prefixOf e = p)).length ∧
      ((catalog.filter (fun e => Ingest.prefixOf e = p)).length
          ≤ Ingest.quotaFor per_survey p →
        (catalog.filter (fun e => Ingest.prefixOf e = p)).take
            (Ingest.quotaFor per_survey p)
          = catalog.filter (fun e => Ingest.prefixOf e = p)) :=
  ⟨select_series_base catalog popular_data per_survey,
   fun _ _ => ⟨List.length_take _ _, fun h => List.take_of_length_le h⟩⟩

/-- Witness for C8 at the spec's numbers: an ordinary survey (`LA`) with
800 ranked entries keeps exactly its first 500, and a high-volume survey
(`OE`) with 800 entries keeps all 800. -/
theorem c8_catalog_selection_quota_witness :
    ("LA" ∈ Ingest.orderedKeys Examples.catalogLA800 ∧
      ((Examples.catalogLA800.filter
          (fun e => Ingest.prefixOf e = "LA")).take
            (Ingest.quotaFor Ingest.SERIES_PER_SURVEY "LA")).length = 500) ∧
    ("OE" ∈ Ingest.orderedKeys Examples.catalogOE800 ∧
      (Examples.catalogOE800.filter (fun e => Ingest.prefixOf e = "OE")).take
          (Ingest.quotaFor Ingest.SERIES_PER_SURVEY "OE")
        = Examples.catalogOE800.filter (fun e => Ingest.prefixOf e = "OE")) := by
  have hLAfil : Examples.catalogLA800.filter (fun e => Ingest.prefixOf e = "LA")
      = Examples.catalogLA800 := by
    apply List.filter_eq_self.mpr
    intro e he
    obtain ⟨i, _, rfl⟩ := List.mem_map.mp he
    simp [Ingest.prefixOf]
  have hOEfil : Examples.catalogOE800.filter (fun e => Ingest.prefixOf e = "OE")
      = Examples.catalogOE800 := by
    apply List.filter_eq_self.mpr
    intro e he
    obtain ⟨i, _, rfl⟩ := List.mem_map.mp he
    simp [Ingest.prefixOf]
  have hLAmem : "LA" ∈ Ingest.orderedKeys Examples.catalogLA800 := by
    apply (mem_orderedKeys _ _).mpr
    refine ⟨{ series_id := "LA" ++ Nat.repr 0, survey_prefix := some "LA" }, ?_, rfl⟩
    exact List.mem_map.mpr ⟨0, by simp, rfl⟩
  have hOEmem : "OE" ∈ Ingest.orderedKeys Examples.catalogOE800 := by
    apply (mem_orderedKeys _ _).mpr
    refine ⟨{ series_id := "OE" ++ Nat.repr 0, survey_prefix := some "OE" }, ?_, rfl⟩
    exact List.mem_map.mpr ⟨0, by simp, rfl⟩
  refine ⟨⟨hLAmem, ?_⟩, ⟨hOEmem, ?_⟩⟩
  · have h := ((c8_catalog_selection_quota Examples.catalogLA800 none
      Ingest.SERIES_PER_SURVEY).2 "LA" hLAmem).1
    rw [h, hLAfil]
    have hlen : Examples.catalogLA800.length = 800 := by
      simp [Examples.catalogLA800]
    rw [hlen]
    decide
  · apply ((c8_catalog_selection_quota Examples.catalogOE800 none
      Ingest.SERIES_PER_SURVEY).2 "OE" hOEmem).2
    rw [hOEfil]
    have hlen : Examples.catalogOE800.length = 800 := by
      simp [Examples.catalogOE800]
    rw [hlen]
    decide

set_option maxRecDepth 4000 in
/-- Counterexample to C9 as stated: this table contains the date `1850`,
whose year fails the range check, yet `test` passes it — the date loop
samples only the first 100 dates and `1850` sits at position 100. -/
theorem c9_counterexample :
    Validate.test Examples.table101 = .ok () ∧
    Validate.Cell.s "1850" ∈ Examples.table101.colCells "date" ∧
    Validate.dateOK (Validate.Cell.s "1850") = false := by
  refine ⟨rfl, by decide, by decide⟩

/-- C9 amended: `test` raises for any table missing one of the required
columns `date`, `indicator`, `value`; it raises for any table whose
first 100 `date` values include one failing the year-range/format check
(a bad date beyond the 100-row sample is not checked); and a table
satisfying all its checks passes. -/
theorem c9_amended_validator (t : Validate.Table) :
    (("date" ∉ t.names ∨ "indicator" ∉ t.names ∨ "value" ∉ t.names) →
      ∃ m, Validate.test t = .error m) ∧
    ((((t.colCells "date").take 100).all Validate.dateOK) = false →
      ∃ m, Validate.test t = .error m) ∧
    ("date" ∈ t.names → "indicator" ∈ t.names → "value" ∈ t.names →
      Validate.validate_not_null_min_rows t = true →
      (((t.colCells "date").take 100).all Validate.dateOK) = true →
      t.colIsFloat "value" = true →
      1 ≤ ((t.colCells "indicator").dedup).length →
      Validate.test t = .ok ()) := by
  refine ⟨?_, ?_, ?_⟩
  · intro h
    unfold Validate.test
    split
    · exact ⟨_, rfl⟩
    · split
      · exact ⟨_, rfl⟩
      · split
        · exact ⟨_, rfl⟩
        · next h1 h2 h3 =>
          rcases h with h | h | h
          · exact absurd h h1
          · exact absurd h h2
          · exact absurd h h3
  · intro h
    unfold Validate.test
    split
    · exact ⟨_, rfl⟩
    · split
      · exact ⟨_, rfl⟩
      · split
        · exact ⟨_, rfl⟩
        · split
          · exact ⟨_, rfl⟩
          · split
            · exact ⟨_, rfl⟩
            · next hdate =>
              rw [h] at hdate
              simp at hdate
  · intro h1 h2 h3 h4 h5 h6 h7
    unfold Validate.test
    rw [if_neg (not_not_intro h1), if_neg (not_not_intro h2),
      if_neg (not_not_intro h3), h4, h5, h6]
    simp only [Bool.not_true, Bool.false_eq_true, if_false]
    rw [if_neg (by omega)]

/-- Witness for C9 amended: a table missing `value` raises, a table with
year 1850 in the sampled window raises, and a fully valid table passes. -/
theorem c9_amended_validator_witness :
    (∃ m, Validate.test Examples.tableNoValue = .error m) ∧
    (∃ m, Validate.test Examples.tableBadYear = .error m) ∧
    Validate.test Examples.tableGood = .ok () :=
  ⟨(c9_amended_validator Examples.tableNoValue).1 (Or.inr (Or.inr (by decide))),
   (c9_amended_validator Examples.tableBadYear).2.1 (by decide),
   (c9_amended_validator Examples.tableGood).2.2 (by decide) (by decide) (by decide)
     (by decide) (by decide) (by decide) (by decide)⟩
